import Mathlib

/-!
Verification of the foodgram serialization and filtering layer
(`backend/foodgram/api/serializers.py`, `backend/foodgram/api/filters.py`).

The Python code is shallowly embedded: the database is a record of lists of
rows, the requester is `Option Int` (`none` = Django's AnonymousUser),
fallible validators return `Except`, and Python runtime failures that are not
DRF `ValidationError`s (`KeyError`, `TypeError`) are a separate error
constructor so that "fails with a validation error" is distinguishable from
"crashes".
-/

namespace Foodgram

/-- A JSON amount value as seen by `validate_ingredients`: either already an
integer or still a string (the serializer's check
`isinstance(amount, str) and not amount.isdigit()` treats both). -/
inductive Amount where
  | int (n : Int)
  | str (s : String)
  deriving DecidableEq, Repr

/-- Python `str.isdigit()` restricted to ASCII: non-empty and all characters
are decimal digits. -/
def pyIsdigit (s : String) : Bool :=
  !s.isEmpty && s.data.all Char.isDigit

/-- Value of a digit string, as Python `int` parses it. -/
def digitsVal (s : String) : Int :=
  s.data.foldl (fun acc c => acc * 10 + (Int.ofNat (c.toNat - '0'.toNat))) 0

/-- Python `int(amount)`: the identity on ints, decimal parsing on digit
strings, and `none` (a `ValueError`) on anything else. -/
def pyInt : Amount → Option Int
  | .int n => some n
  | .str s => if pyIsdigit s then some (digitsVal s) else none

/-- A `Tag` row: id, name, slug.  `PrimaryKeyRelatedField` resolves incoming
tag ids to full `Tag` instances before validation, so validated payloads carry
`Tag` values. -/
structure Tag where
  id : Int
  name : String
  slug : String
  deriving DecidableEq, Repr

/-- An `Ingredient` row of the catalogue: id, name, measurement unit. -/
structure Ingredient where
  id : Int
  name : String
  measurement_unit : String
  deriving DecidableEq, Repr

/-- One validated write line item `{id, amount}`
(`IngredientWriteSerializer`). -/
structure LineItem where
  id : Int
  amount : Amount
  deriving DecidableEq, Repr

/-- A `Recipe` row.  The many-to-many tag association is stored on the row as
the list of associated tags; `image` is an opaque stored reference. -/
structure RecipeRow where
  id : Int
  name : String
  text : String
  cooking_time : Int
  image : String
  author : Int
  tags : List Tag
  deriving DecidableEq, Repr

/-- An `IngredientRecipe` join row: recipe id, ingredient id, amount (an
integer column, so the stored amount is an `Int`). -/
structure IngredientRecipeRow where
  recipe : Int
  ingredient : Int
  amount : Int
  deriving DecidableEq, Repr

/-- The persisted state the serializers and filters consult: recipe rows, the
`IngredientRecipe` join table, the ingredient catalogue, and the
`FavoriteRecipe` / `ShoppingList` / `Subscribe` `(user, target)` join tables.
`nextRecipeId` is the id the persistence layer hands to the next created
recipe. -/
structure DB where
  recipes : List RecipeRow
  ingredientrecipe : List IngredientRecipeRow
  ingredients : List Ingredient
  favoriterecipe : List (Int × Int)
  shoppinglist : List (Int × Int)
  subscribe : List (Int × Int)
  nextRecipeId : Int
  deriving Repr

/-- The requester attached to the request context: `none` is Django's
`AnonymousUser`. -/
abbrev Requester := Option Int

/-- Django `User.is_authenticated`: true exactly for a real user. -/
def isAuthenticated : Requester → Bool
  | some _ => true
  | none => false

/-- Django `User.is_anonymous`: true exactly for `AnonymousUser`. -/
def isAnonymous : Requester → Bool
  | some _ => false
  | none => true

/-- Errors a serializer call can surface: a DRF `ValidationError` with its
message, or a raw Python exception (`KeyError` from `dict.pop` on a missing
key, `TypeError` from `tags.set(None)`), which DRF does not convert into a
validation error. -/
inductive PyErr where
  | validation (msg : String) : PyErr
  | keyError : PyErr
  | typeError : PyErr
  deriving DecidableEq, Repr

/-! ## Validators of `RecipeWriteSerializer` (serializers.py lines 88-134) -/

def msgIngredientsMissing : String := "Список ингредиентов отсутствует."
def msgIngredientsEmpty : String := "Список ингредиентов пуст."
def msgIngredientsDup : String := "Выбрано два одинаковых ингредиента."
def msgAmountNotNumber : String :=
  "Количество ингредиентов должно быть положительным числом."
def msgAmountNotPositive : String :=
  "Количество ингредиентов не может быть меньше/равно нулю."
def msgCookingTime : String :=
  "Время приготовления не может быть нулевым или отрицательным."
def msgTagsEmpty : String := "Нужен хотя бы один тег."
def msgTagsDup : String := "Теги не могут повторяться."
def msgSubscribeDup : String := "Вы уже подписаны на данного пользователя."
def msgSubscribeSelf : String := "Вы не можете оформлять подписки на себя."

/-- The amount loop of `validate_ingredients` (lines 105-114): for each line,
a string amount that is not all digits raises, then `int(amount) <= 0`
raises. -/
def checkAmounts : List LineItem → Except String Unit
  | [] => .ok ()
  | li :: rest =>
    match li.amount with
    | .str s =>
      if !pyIsdigit s then .error msgAmountNotNumber
      else if digitsVal s ≤ 0 then .error msgAmountNotPositive
      else checkAmounts rest
    | .int n =>
      if n ≤ 0 then .error msgAmountNotPositive
      else checkAmounts rest

/-- `RecipeWriteSerializer.validate_ingredients` (lines 88-116): `None` and
the empty list raise, then `len(set(ids)) < len(ids)` detects duplicate
ingredient ids, then each amount is checked; the validated list is returned
unchanged. -/
def validate_ingredients : Option (List LineItem) → Except String (List LineItem)
  | none => .error msgIngredientsMissing
  | some obj =>
    if obj.length = 0 then .error msgIngredientsEmpty
    else
      let id_ingredients := obj.map (·.id)
      if id_ingredients.dedup.length < id_ingredients.length then
        .error msgIngredientsDup
      else
        match checkAmounts obj with
        | .error e => .error e
        | .ok _ => .ok obj

/-- `RecipeWriteSerializer.validate_cooking_time` (lines 118-123). -/
def validate_cooking_time (obj : Int) : Except String Int :=
  if obj < 1 then .error msgCookingTime else .ok obj

/-- The duplicate-scan loop of `validate_tags` (lines 129-133): walk the tags
keeping the already seen ones; a tag equal (Django model equality is primary
key equality) to a seen one raises. -/
def tagsDupScan : List Tag → List Tag → Except String Unit
  | _, [] => .ok ()
  | tags_list, tag :: rest =>
    if tags_list.any (fun t => t.id = tag.id) then .error msgTagsDup
    else tagsDupScan (tag :: tags_list) rest

/-- `RecipeWriteSerializer.validate_tags` (lines 125-134): `if not tags`
rejects both an absent (`None`) and an empty list, then the duplicate scan
runs; the validated list is returned unchanged. -/
def validate_tags : Option (List Tag) → Except String (List Tag)
  | none => .error msgTagsEmpty
  | some tags =>
    if tags.isEmpty then .error msgTagsEmpty
    else
      match tagsDupScan [] tags with
      | .error e => .error e
      | .ok _ => .ok tags

/-- The incoming payload before validation: scalar fields plus possibly
absent `tags` / `ingredients` keys. -/
structure RawPayload where
  name : String
  text : String
  image : String
  cooking_time : Int
  tags : Option (List Tag)
  ingredients : Option (List LineItem)
  deriving Repr

/-- `validated_data` after a successful `is_valid()`: every field present. -/
structure Payload where
  name : String
  text : String
  image : String
  cooking_time : Int
  tags : List Tag
  ingredients : List LineItem
  deriving Repr

/-- Modelled from the spec: the DRF serializer validation dispatch (the
framework's `is_valid`/`to_internal_value`, not part of this repository's
`src/`) runs the field validators; per spec §4.3 the validation is ordered
with the first failure reported: (1-3) `validate_ingredients`,
(4) `validate_cooking_time`, (5) `validate_tags`. -/
def runValidation (raw : RawPayload) : Except String Payload := do
  let ingredients ← validate_ingredients raw.ingredients
  let cooking_time ← validate_cooking_time raw.cooking_time
  let tags ← validate_tags raw.tags
  .ok { name := raw.name, text := raw.text, image := raw.image,
        cooking_time := cooking_time, tags := tags,
        ingredients := ingredients }

/-! ## Create / update (serializers.py lines 136-161) -/

/-- `RecipeWriteSerializer.create_ingredients` (lines 136-144) with the tag
list known to be present: `recipe.tags.set(tags)` replaces the association on
the inst and its row, then `bulk_create` appends one `IngredientRecipe`
row per line item; the integer column stores `int(amount)` (validation
guarantees the coercion succeeds, so `getD 0` is never the junk branch). -/
def create_ingredients_core (db : DB) (recipe : RecipeRow) (tags : List Tag)
    (ingredients : List LineItem) : DB × RecipeRow :=
  let recipe' := { recipe with tags := tags }
  let db1 := { db with
    recipes := db.recipes.map (fun (r : RecipeRow) => if r.id = recipe.id then recipe' else r) }
  let rows := ingredients.map
    (fun li => ({ recipe := recipe.id, ingredient := li.id,
                  amount := (pyInt li.amount).getD 0 } : IngredientRecipeRow))
  ({ db1 with ingredientrecipe := db1.ingredientrecipe ++ rows }, recipe')

/-- `RecipeWriteSerializer.create_ingredients` as called with the raw popped
`tags` value: `recipe.tags.set(None)` is a Python `TypeError`, not a
`ValidationError`. -/
def create_ingredients (db : DB) (recipe : RecipeRow) (tags : Option (List Tag))
    (ingredients : List LineItem) : Except PyErr (DB × RecipeRow) :=
  match tags with
  | none => .error .typeError
  | some ts => .ok (create_ingredients_core db recipe ts ingredients)

/-- `RecipeWriteSerializer.create` (lines 146-152): pop `tags` and
`ingredients` from the validated data, create the recipe row (author from the
request, scalar fields from the payload, a fresh id from the persistence
layer), then `create_ingredients`. -/
def create (db : DB) (author : Int) (d : Payload) : DB × RecipeRow :=
  let rid := db.nextRecipeId
  let recipe : RecipeRow :=
    { id := rid, name := d.name, text := d.text, cooking_time := d.cooking_time,
      image := d.image, author := author, tags := [] }
  let db1 := { db with recipes := db.recipes ++ [recipe], nextRecipeId := rid + 1 }
  create_ingredients_core db1 recipe d.tags d.ingredients

/-- The `validated_data` dict handed to `update`, with possibly missing keys
(`dict.pop('tags', None)` / `dict.pop('ingredients')`). -/
structure UpdateData where
  name : Option String
  text : Option String
  image : Option String
  cooking_time : Option Int
  tags : Option (List Tag)
  ingredients : Option (List LineItem)

/-- `ModelSerializer.update` (the `super().update` call): set each remaining
attribute present in the data on the inst and save it. -/
def superUpdate (db : DB) (inst : RecipeRow) (d : UpdateData) : DB × RecipeRow :=
  let inst' := { inst with
    name := d.name.getD inst.name,
    text := d.text.getD inst.text,
    image := d.image.getD inst.image,
    cooking_time := d.cooking_time.getD inst.cooking_time }
  ({ db with recipes := db.recipes.map (fun (r : RecipeRow) => if r.id = inst.id then inst' else r) },
   inst')

/-- `RecipeWriteSerializer.update` (lines 154-161): pop `tags` (defaulting to
`None`) and set the association when supplied; pop `ingredients` (a `KeyError`
when absent); `inst.ingredients.clear()` deletes every line row of the
inst; `create_ingredients` is called with the popped `tags` value (a
`TypeError` when it was `None`); finally `super().update` applies the
remaining fields. -/
def update (db : DB) (inst : RecipeRow) (d : UpdateData) :
    Except PyErr (DB × RecipeRow) :=
  let step1 : DB × RecipeRow :=
    match d.tags with
    | some ts =>
      let inst' := { inst with tags := ts }
      ({ db with recipes := db.recipes.map (fun (r : RecipeRow) => if r.id = inst.id then inst' else r) },
       inst')
    | none => (db, inst)
  match d.ingredients with
  | none => .error .keyError
  | some ing =>
    let db2 := { step1.1 with
      ingredientrecipe := step1.1.ingredientrecipe.filter
        (fun l => l.recipe != inst.id) }
    match create_ingredients db2 step1.2 d.tags ing with
    | .error e => .error e
    | .ok (db3, inst2) =>
      .ok (superUpdate db3 inst2
        { d with tags := none, ingredients := none })

/-- The validated payload as the `validated_data` dict `update` receives
after a successful non-partial `is_valid()`: all keys present. -/
def Payload.toUpdateData (d : Payload) : UpdateData :=
  { name := some d.name, text := some d.text, image := some d.image,
    cooking_time := some d.cooking_time, tags := some d.tags,
    ingredients := some d.ingredients }

/-- The serializer update entry point: validation, then `update` on the
validated data (`serializer.is_valid()` followed by `serializer.save()`). -/
def updateEntry (db : DB) (inst : RecipeRow) (raw : RawPayload) :
    Except PyErr (DB × RecipeRow) :=
  match runValidation raw with
  | .error m => .error (.validation m)
  | .ok d => update db inst d.toUpdateData

/-! ## Read serializer (`RecipeSerializer`, serializers.py lines 40-66) -/

/-- One rendered ingredient line (`RecipeIngredientsSerializer`, lines
28-37): id, name and measurement unit follow the `ingredient` foreign key;
`amount` comes from the join row. -/
structure ReprIngredient where
  id : Int
  name : String
  measurement_unit : String
  amount : Int
  deriving DecidableEq

/-- `RecipeSerializer.get_is_favorited` (lines 56-60): `False` for an
anonymous requester, otherwise an existence check of the `(user, recipe)`
pair in the `FavoriteRecipe` table. -/
def get_is_favorited (db : DB) (user : Requester) (obj : RecipeRow) : Bool :=
  if isAnonymous user then false
  else db.favoriterecipe.any (fun p => some p.1 == user && p.2 == obj.id)

/-- `RecipeSerializer.get_is_in_shopping_cart` (lines 62-66): same shape
against the `ShoppingList` table. -/
def get_is_in_shopping_cart (db : DB) (user : Requester) (obj : RecipeRow) : Bool :=
  if isAnonymous user then false
  else db.shoppinglist.any (fun p => some p.1 == user && p.2 == obj.id)

/-- The output representation of a recipe (`RecipeSerializer.Meta.fields`,
lines 50-54); the author is rendered by `CustomUserSerializer`, kept here as
the author id. -/
structure RecipeRepr where
  id : Int
  name : String
  image : String
  cooking_time : Int
  author : Int
  ingredients : List ReprIngredient
  is_favorited : Bool
  is_in_shopping_cart : Bool
  text : String
  tags : List Tag
  deriving DecidableEq

/-- `RecipeSerializer` applied to an inst (also the body of
`RecipeWriteSerializer.to_representation`, lines 163-168): scalars pass
through, `ingredients` renders the inst's `ingredientrecipe` rows through
the foreign-key lookup (the catalogue entry exists in a consistent database,
so the `getD ""` defaults are never the rendered value), `tags` renders the
associated tag objects, and the two flags are the method fields above. -/
def recipeRepresentation (db : DB) (user : Requester) (inst : RecipeRow) :
    RecipeRepr :=
  { id := inst.id, name := inst.name, image := inst.image,
    cooking_time := inst.cooking_time, author := inst.author,
    ingredients :=
      (db.ingredientrecipe.filter (fun l => l.recipe == inst.id)).map
        (fun l =>
          { id := l.ingredient,
            name := ((db.ingredients.find? (fun i => i.id == l.ingredient)).map
              (·.name)).getD "",
            measurement_unit :=
              ((db.ingredients.find? (fun i => i.id == l.ingredient)).map
                (·.measurement_unit)).getD "",
            amount := l.amount }),
    is_favorited := get_is_favorited db user inst,
    is_in_shopping_cart := get_is_in_shopping_cart db user inst,
    text := inst.text, tags := inst.tags }

/-! ## Recipe filters (`RecipeFilter`, filters.py lines 17-45) -/

/-- `RecipeFilter.filter_is_favorited` (lines 35-39): when the value is true
and `request.user.is_authenticated`, keep the recipes having a
`FavoriteRecipe` row for this user (`favoriterecipe__user=...`); otherwise
return the queryset unchanged. -/
def filter_is_favorited (request_user : Requester)
    (favoriterecipe : List (Int × Int)) (queryset : List RecipeRow)
    (value : Bool) : List RecipeRow :=
  if value && isAuthenticated request_user then
    queryset.filter (fun r =>
      favoriterecipe.any (fun p => some p.1 == request_user && p.2 == r.id))
  else queryset

/-- `RecipeFilter.filter_is_in_shopping_cart` (lines 41-45): the same against
the `ShoppingList` table, guarded with `not user.is_anonymous`. -/
def filter_is_in_shopping_cart (request_user : Requester)
    (shoppinglist : List (Int × Int)) (queryset : List RecipeRow)
    (value : Bool) : List RecipeRow :=
  if value && !isAnonymous request_user then
    queryset.filter (fun r =>
      shoppinglist.any (fun p => some p.1 == request_user && p.2 == r.id))
  else queryset

/-- The `tags` filter (lines 22-26): a `ModelMultipleChoiceFilter` on
`tags__slug` with the default non-conjoined semantics — an empty selection is
a no-op, a non-empty one keeps the recipes having some associated tag whose
slug is among the selected values (the ORed `Q(tags__slug=v)` lookups). -/
def tagsFilter (slugs : List String) (queryset : List RecipeRow) :
    List RecipeRow :=
  if slugs.isEmpty then queryset
  else queryset.filter (fun r => r.tags.any (fun t => slugs.contains t.slug))

/-! ## Subscribe serializer (`SubscribeUserSerializer`, lines 210-227) -/

/-- `SubscribeUserSerializer` validation: the `UniqueTogetherValidator` on
`(user, author)` (lines 214-220) rejects an already existing pair, and
`validate` (lines 222-227) rejects `user == author`. -/
def subscribeValidate (db : DB) (user author : Int) : Except String Unit :=
  if db.subscribe.any (fun p => p.1 == user && p.2 == author) then
    .error msgSubscribeDup
  else if user = author then .error msgSubscribeSelf
  else .ok ()

/-- A subscribe write: validation then insertion of the `(user, author)`
row. -/
def subscribeCreate (db : DB) (user author : Int) : Except String DB :=
  match subscribeValidate db user author with
  | .error m => .error m
  | .ok _ => .ok { db with subscribe := db.subscribe ++ [(user, author)] }

/-! ## Specification-side definitions -/

/-- Spec §4.1: a recipe has ANY tag whose slug is in the given set. -/
def hasAnySlug (slugs : List String) (r : RecipeRow) : Bool :=
  r.tags.any (fun t => slugs.contains t.slug)

/-- The rejected reading of the tag filter: a recipe has ALL the given slugs
(intersection semantics). -/
def hasAllSlugs (slugs : List String) (r : RecipeRow) : Bool :=
  slugs.all (fun s => r.tags.any (fun t => t.slug == s))

/-- A single amount is acceptable to the amount checks of
`validate_ingredients`: a positive integer, or a digit string of positive
value. -/
def amountValid : Amount → Bool
  | .int n => 0 < n
  | .str s => pyIsdigit s && 0 < digitsVal s

/-- Spec §4.3 rule 1: ingredients list present and non-empty. -/
def rule1 (raw : RawPayload) : Bool :=
  match raw.ingredients with
  | none => false
  | some l => !l.isEmpty

/-- Spec §4.3 rule 2: no duplicate ingredient ids. -/
def rule2 (raw : RawPayload) : Bool :=
  match raw.ingredients with
  | none => true
  | some l => decide ((l.map (·.id)).Nodup)

/-- Spec §4.3 rule 3: each amount, after coercing a numeric string, is a
positive integer. -/
def rule3 (raw : RawPayload) : Bool :=
  match raw.ingredients with
  | none => true
  | some l => l.all (fun li => amountValid li.amount)

/-- Spec §4.3 rule 4: cooking_time at least 1. -/
def rule4 (raw : RawPayload) : Bool :=
  1 ≤ raw.cooking_time

/-- Spec §4.3 rule 5: tags list non-empty without duplicates. -/
def rule5 (raw : RawPayload) : Bool :=
  match raw.tags with
  | none => false
  | some l => !l.isEmpty && decide ((l.map (·.id)).Nodup)

/-- The earliest violated rule of spec §4.3 (0 when the payload is valid). -/
def firstFailingRule (raw : RawPayload) : Nat :=
  if !rule1 raw then 1
  else if !rule2 raw then 2
  else if !rule3 raw then 3
  else if !rule4 raw then 4
  else if !rule5 raw then 5
  else 0

/-- The rule each validation message belongs to. -/
def ruleOfMsg (m : String) : Nat :=
  if m = msgIngredientsMissing ∨ m = msgIngredientsEmpty then 1
  else if m = msgIngredientsDup then 2
  else if m = msgAmountNotNumber ∨ m = msgAmountNotPositive then 3
  else if m = msgCookingTime then 4
  else if m = msgTagsEmpty ∨ m = msgTagsDup then 5
  else 0

/-- An `Except` computation that failed. -/
def isErr : Except String (List LineItem) → Bool
  | .error _ => true
  | .ok _ => false

/-! ## Helper lemmas -/

theorem dedup_length_lt_iff {α : Type} [DecidableEq α] (l : List α) :
    l.dedup.length < l.length ↔ ¬ l.Nodup := by
  constructor
  · intro h hnd
    rw [List.dedup_eq_self.2 hnd] at h
    exact lt_irrefl _ h
  · intro hnd
    have hsub := List.dedup_sublist l
    rcases lt_or_eq_of_le hsub.length_le with h | h
    · exact h
    · exact absurd (List.dedup_eq_self.1 (hsub.eq_of_length h)) hnd

theorem checkAmounts_ok_iff (l : List LineItem) :
    checkAmounts l = .ok () ↔ ∀ li ∈ l, amountValid li.amount = true := by
  induction l with
  | nil => simp [checkAmounts]
  | cons li rest ih =>
    cases ha : li.amount with
    | int n =>
      by_cases hn : n ≤ 0
      · simp [checkAmounts, ha, hn, amountValid]
      · simp only [checkAmounts, ha, if_neg hn, ih]
        constructor
        · intro h li' hmem
          rcases List.mem_cons.1 hmem with rfl | hmem'
          · simp [amountValid, ha]; omega
          · exact h li' hmem'
        · intro h li' hmem'
          exact h li' (List.mem_cons_of_mem _ hmem')
    | str s =>
      by_cases hd : pyIsdigit s
      · by_cases hv : digitsVal s ≤ 0
        · simp [checkAmounts, ha, hd, hv, amountValid]
        · simp only [checkAmounts, ha, hd, Bool.not_true, Bool.false_eq_true,
            if_false, if_neg hv, ih]
          constructor
          · intro h li' hmem
            rcases List.mem_cons.1 hmem with rfl | hmem'
            · simp [amountValid, ha, hd]; omega
            · exact h li' hmem'
          · intro h li' hmem'
            exact h li' (List.mem_cons_of_mem _ hmem')
      · simp [checkAmounts, ha, hd, amountValid]

theorem checkAmounts_error_msg (l : List LineItem) (m : String)
    (h : checkAmounts l = .error m) :
    m = msgAmountNotNumber ∨ m = msgAmountNotPositive := by
  induction l with
  | nil => simp [checkAmounts] at h
  | cons li rest ih =>
    cases ha : li.amount with
    | int n =>
      simp only [checkAmounts, ha] at h
      by_cases hn : n ≤ 0
      · rw [if_pos hn] at h
        exact Or.inr (Except.error.inj h).symm
      · rw [if_neg hn] at h
        exact ih h
    | str s =>
      simp only [checkAmounts, ha] at h
      by_cases hd : pyIsdigit s
      · simp only [hd, Bool.not_true, Bool.false_eq_true, if_false] at h
        by_cases hv : digitsVal s ≤ 0
        · rw [if_pos hv] at h
          exact Or.inr (Except.error.inj h).symm
        · rw [if_neg hv] at h
          exact ih h
      · simp only [hd, Bool.not_false, if_true] at h
        exact Or.inl (Except.error.inj h).symm

theorem checkAmounts_not_ok (l : List LineItem)
    (h : ¬ ∀ li ∈ l, amountValid li.amount = true) :
    ∃ m, checkAmounts l = .error m ∧
      (m = msgAmountNotNumber ∨ m = msgAmountNotPositive) := by
  cases hca : checkAmounts l with
  | ok u =>
    cases u
    exact absurd ((checkAmounts_ok_iff l).1 hca) h
  | error m => exact ⟨m, rfl, checkAmounts_error_msg l m hca⟩

theorem validate_ingredients_ok_iff (o : Option (List LineItem))
    (l : List LineItem) :
    validate_ingredients o = .ok l ↔
      o = some l ∧ l ≠ [] ∧ (l.map (·.id)).Nodup ∧
        ∀ li ∈ l, amountValid li.amount = true := by
  cases o with
  | none => simp [validate_ingredients]
  | some obj =>
    simp only [validate_ingredients]
    by_cases h0 : obj.length = 0
    · rw [List.length_eq_zero] at h0
      subst h0
      simp
      intro h1 h2
      exact absurd h1 h2
    · rw [if_neg h0]
      by_cases hd : (obj.map (·.id)).dedup.length < (obj.map (·.id)).length
      · simp only [if_pos hd]
        have hnd := (dedup_length_lt_iff _).1 hd
        constructor
        · intro h; cases h
        · rintro ⟨heq, -, hnodup, -⟩
          cases heq
          exact absurd hnodup hnd
      · rw [if_neg hd]
        have hnd : (obj.map (·.id)).Nodup := by
          by_contra hc
          exact hd ((dedup_length_lt_iff _).2 hc)
        cases hca : checkAmounts obj with
        | ok u =>
          cases u
          have hall := (checkAmounts_ok_iff obj).1 hca
          simp only [Except.ok.injEq, Option.some.injEq]
          constructor
          · rintro rfl
            refine ⟨rfl, ?_, hnd, hall⟩
            intro hnil
            exact h0 (by simp [hnil])
          · rintro ⟨rfl, -, -, -⟩
            rfl
        | error m =>
          constructor
          · intro h; cases h
          · rintro ⟨heq, -, -, hall⟩
            cases heq
            rw [(checkAmounts_ok_iff _).2 hall] at hca
            cases hca

theorem validate_ingredients_dup (obj : List LineItem) (hne : obj ≠ [])
    (hdup : ¬ (obj.map (·.id)).Nodup) :
    validate_ingredients (some obj) = .error msgIngredientsDup := by
  have hlt := (dedup_length_lt_iff (obj.map (·.id))).2 hdup
  have h0 : ¬ obj.length = 0 := by
    intro h
    exact hne (List.length_eq_zero.1 h)
  simp only [validate_ingredients, if_neg h0, if_pos hlt]

theorem validate_ingredients_bad_amount (obj : List LineItem) (hne : obj ≠ [])
    (hnd : (obj.map (·.id)).Nodup)
    (hbad : ¬ ∀ li ∈ obj, amountValid li.amount = true) :
    ∃ m, validate_ingredients (some obj) = .error m ∧
      (m = msgAmountNotNumber ∨ m = msgAmountNotPositive) := by
  have h0 : ¬ obj.length = 0 := by
    intro h
    exact hne (List.length_eq_zero.1 h)
  have hlt : ¬ (obj.map (·.id)).dedup.length < (obj.map (·.id)).length :=
    fun hlt => absurd ((dedup_length_lt_iff _).1 hlt) (not_not.2 hnd)
  obtain ⟨m, hm, hcase⟩ := checkAmounts_not_ok obj hbad
  refine ⟨m, ?_, hcase⟩
  simp only [validate_ingredients, if_neg h0, if_neg hlt, hm]

theorem tagsDupScan_ok_iff (rest seen : List Tag) :
    tagsDupScan seen rest = .ok () ↔
      ((rest.map (·.id)).Nodup ∧ ∀ t ∈ rest, ∀ s ∈ seen, ¬ s.id = t.id) := by
  induction rest generalizing seen with
  | nil => simp [tagsDupScan]
  | cons t rest ih =>
    by_cases hc : seen.any (fun s => s.id = t.id)
    · simp only [tagsDupScan, hc, if_true]
      obtain ⟨s, hs, hsid⟩ := List.any_eq_true.1 hc
      constructor
      · intro h; cases h
      · rintro ⟨-, hall⟩
        exact absurd (of_decide_eq_true hsid)
          (hall t (List.mem_cons_self t rest) s hs)
    · simp only [tagsDupScan, hc, if_false, Bool.false_eq_true, ih]
      have hcs : ∀ s ∈ seen, ¬ s.id = t.id := by
        intro s hs heq
        exact hc (List.any_eq_true.2 ⟨s, hs, decide_eq_true heq⟩)
      constructor
      · rintro ⟨hnd, hall⟩
        refine ⟨?_, ?_⟩
        · rw [List.map_cons, List.nodup_cons]
          refine ⟨?_, hnd⟩
          intro hmem
          obtain ⟨x, hx, hxid⟩ := List.mem_map.1 hmem
          exact hall x hx t (List.mem_cons_self t seen) hxid.symm
        · intro t' ht' s hs
          rcases List.mem_cons.1 ht' with rfl | ht''
          · exact hcs s hs
          · exact hall t' ht'' s (List.mem_cons_of_mem t hs)
      · rintro ⟨hnd, hall⟩
        rw [List.map_cons, List.nodup_cons] at hnd
        refine ⟨hnd.2, ?_⟩
        intro t' ht' s hs
        rcases List.mem_cons.1 hs with rfl | hs'
        · intro heq
          exact hnd.1 (List.mem_map.2 ⟨t', ht', heq.symm⟩)
        · exact hall t' (List.mem_cons_of_mem t ht') s hs'

theorem tagsDupScan_error_msg (rest seen : List Tag) (m : String)
    (h : tagsDupScan seen rest = .error m) : m = msgTagsDup := by
  induction rest generalizing seen with
  | nil => simp [tagsDupScan] at h
  | cons t rest ih =>
    simp only [tagsDupScan] at h
    by_cases hc : seen.any (fun s => s.id = t.id)
    · rw [if_pos hc] at h
      exact (Except.error.inj h).symm
    · rw [if_neg hc] at h
      exact ih _ h

theorem validate_tags_ok_iff (o : Option (List Tag)) (l : List Tag) :
    validate_tags o = .ok l ↔
      o = some l ∧ l ≠ [] ∧ (l.map (·.id)).Nodup := by
  cases o with
  | none => simp [validate_tags]
  | some tags =>
    simp only [validate_tags]
    by_cases he : tags.isEmpty
    · rw [List.isEmpty_iff] at he
      subst he
      simp
      intro h1 h2
      exact absurd h1 h2
    · rw [if_neg he]
      have hne : tags ≠ [] := by
        intro h
        exact he (by simp [h])
      cases hscan : tagsDupScan [] tags with
      | ok u =>
        cases u
        have hnd := ((tagsDupScan_ok_iff tags []).1 hscan).1
        simp only [Except.ok.injEq, Option.some.injEq]
        constructor
        · rintro rfl
          exact ⟨rfl, hne, hnd⟩
        · rintro ⟨rfl, -, -⟩
          rfl
      | error m =>
        constructor
        · intro h; cases h
        · rintro ⟨heq, -, hnd⟩
          cases heq
          rw [(tagsDupScan_ok_iff _ []).2 ⟨hnd, by simp⟩] at hscan
          cases hscan

theorem validate_tags_dup (tags : List Tag) (hne : tags ≠ [])
    (hdup : ¬ (tags.map (·.id)).Nodup) :
    validate_tags (some tags) = .error msgTagsDup := by
  have he : ¬ tags.isEmpty := by
    intro h
    exact hne (List.isEmpty_iff.1 h)
  simp only [validate_tags, if_neg he]
  cases hscan : tagsDupScan [] tags with
  | ok u =>
    cases u
    exact absurd ((tagsDupScan_ok_iff tags []).1 hscan).1 hdup
  | error m =>
    rw [tagsDupScan_error_msg tags [] m hscan]

theorem runValidation_ok_elim {raw : RawPayload} {d : Payload}
    (h : runValidation raw = .ok d) :
    validate_ingredients raw.ingredients = .ok d.ingredients ∧
    validate_cooking_time raw.cooking_time = .ok d.cooking_time ∧
    validate_tags raw.tags = .ok d.tags ∧
    d.name = raw.name ∧ d.text = raw.text ∧ d.image = raw.image := by
  unfold runValidation at h
  cases h1 : validate_ingredients raw.ingredients with
  | error e =>
    rw [h1] at h
    simp [Bind.bind, Except.bind] at h
  | ok ing =>
    rw [h1] at h
    cases h2 : validate_cooking_time raw.cooking_time with
    | error e =>
      rw [h2] at h
      simp [Bind.bind, Except.bind] at h
    | ok ct =>
      rw [h2] at h
      cases h3 : validate_tags raw.tags with
      | error e =>
        rw [h3] at h
        simp [Bind.bind, Except.bind] at h
      | ok ts =>
        rw [h3] at h
        simp only [Bind.bind, Except.bind, Except.ok.injEq] at h
        subst h
        exact ⟨rfl, rfl, rfl, rfl, rfl, rfl⟩

theorem some_beq_some (a b : Int) :
    ((some a : Option Int) == some b) = (a == b) := by
  cases h : (a == b) <;> simp_all

theorem any_pair_mem (l : List (Int × Int)) (a b : Int) :
    (l.any (fun p => p.1 == a && p.2 == b)) = true ↔ (a, b) ∈ l := by
  induction l with
  | nil => simp
  | cons p rest ih =>
    cases p with
    | mk x y =>
      simp only [List.any_cons, Bool.or_eq_true, ih, List.mem_cons,
        Bool.and_eq_true, beq_iff_eq, Prod.mk.injEq]
      constructor
      · rintro (⟨rfl, rfl⟩ | h)
        · exact Or.inl ⟨rfl, rfl⟩
        · exact Or.inr h
      · rintro (⟨rfl, rfl⟩ | h)
        · exact Or.inl ⟨rfl, rfl⟩
        · exact Or.inr h

/-! ## The claims -/

/-- C2: for every recipe collection and requester, `filter_is_favorited`
returns the collection unchanged when the value is false or the requester is
anonymous, and restricts it to the requester's favorited recipes exactly when
the value is true and the requester is authenticated. -/
theorem filter_is_favorited_noop_and_restrict (u : Requester)
    (fav : List (Int × Int)) (qs : List RecipeRow) (value : Bool) :
    ((value = false ∨ u = none) → filter_is_favorited u fav qs value = qs)
    ∧ (∀ uid : Int, u = some uid → value = true →
        filter_is_favorited u fav qs value
          = qs.filter (fun r => decide ((uid, r.id) ∈ fav))) := by
  constructor
  · rintro (rfl | rfl) <;> simp [filter_is_favorited, isAuthenticated]
  · rintro uid rfl rfl
    simp only [filter_is_favorited, isAuthenticated, Bool.and_true, if_pos]
    apply List.filter_congr
    intro r hr
    rw [show (fun p : Int × Int => some p.1 == some uid && p.2 == r.id)
          = (fun p : Int × Int => p.1 == uid && p.2 == r.id) from
        funext (fun p => by rw [some_beq_some])]
    rw [Bool.eq_iff_iff, any_pair_mem, decide_eq_true_eq]

/-- The witness for C2 at a concrete favorites table and queryset. -/
theorem filter_is_favorited_noop_and_restrict_witness :
    filter_is_favorited (some 7) [(7, 1)]
      [{ id := 1, name := "a", text := "b", cooking_time := 1, image := "i",
          author := 2, tags := [] },
        { id := 2, name := "c", text := "d", cooking_time := 1, image := "i",
          author := 2, tags := [] }] true
      = [{ id := 1, name := "a", text := "b", cooking_time := 1, image := "i",
            author := 2, tags := [] }]
    ∧ filter_is_favorited none [(7, 1)]
        [{ id := 1, name := "a", text := "b", cooking_time := 1, image := "i",
            author := 2, tags := [] }] true
      = [{ id := 1, name := "a", text := "b", cooking_time := 1, image := "i",
            author := 2, tags := [] }] := by
  constructor
  · rw [(filter_is_favorited_noop_and_restrict (some 7) [(7, 1)] _ true).2 7
      rfl rfl]
    decide
  · rw [(filter_is_favorited_noop_and_restrict none [(7, 1)] _ true).1
      (Or.inr rfl)]

/-- A sample tag and recipe used to exhibit OR-versus-AND tag filtering. -/
def sampleTagA : Tag := { id := 1, name := "Breakfast", slug := "breakfast" }

def sampleRecipeA : RecipeRow :=
  { id := 1, name := "Omelette", text := "Eggs", cooking_time := 5,
    image := "img", author := 1, tags := [sampleTagA] }

/-- C3: for every non-empty set of tag slugs the tags filter keeps exactly
the recipes having at least one tag with a slug in the set (OR / union
semantics); on a recipe carrying only one of two requested slugs this differs
from the all-slugs (intersection) reading. -/
theorem tags_filter_union_semantics (slugs : List String)
    (qs : List RecipeRow) (h : slugs ≠ []) :
    tagsFilter slugs qs = qs.filter (hasAnySlug slugs)
    ∧ tagsFilter ["breakfast", "dinner"] [sampleRecipeA]
        ≠ [sampleRecipeA].filter (hasAllSlugs ["breakfast", "dinner"]) := by
  constructor
  · have he : slugs.isEmpty = false := by
      cases slugs with
      | nil => exact absurd rfl h
      | cons a l => rfl
    simp only [tagsFilter, he, Bool.false_eq_true, if_false]
    rfl
  · decide

/-- The witness for C3 at a concrete slug set and queryset. -/
theorem tags_filter_union_semantics_witness :
    tagsFilter ["breakfast"] [sampleRecipeA]
      = [sampleRecipeA].filter (hasAnySlug ["breakfast"]) :=
  (tags_filter_union_semantics ["breakfast"] [sampleRecipeA] (by decide)).1

/-- C9: the read representation computes `is_favorited` and
`is_in_shopping_cart` as false for an anonymous requester and as existence of
the `(requester, recipe)` pair in the `FavoriteRecipe` / `ShoppingList` join
table for an authenticated one. -/
theorem representation_flags_membership (db : DB) (r : RecipeRow) :
    (recipeRepresentation db none r).is_favorited = false
    ∧ (recipeRepresentation db none r).is_in_shopping_cart = false
    ∧ (∀ u : Int, (recipeRepresentation db (some u) r).is_favorited = true
        ↔ (u, r.id) ∈ db.favoriterecipe)
    ∧ (∀ u : Int,
        (recipeRepresentation db (some u) r).is_in_shopping_cart = true
          ↔ (u, r.id) ∈ db.shoppinglist) := by
  refine ⟨rfl, rfl, ?_, ?_⟩ <;> intro u <;>
    simp only [recipeRepresentation, get_is_favorited, get_is_in_shopping_cart,
      isAnonymous, Bool.false_eq_true, if_false] <;>
    rw [show (fun p : Int × Int => some p.1 == some u && p.2 == r.id)
          = (fun p : Int × Int => p.1 == u && p.2 == r.id) from
        funext (fun p => by rw [some_beq_some])] <;>
    exact any_pair_mem _ u r.id

/-- The witness for C9: the flags evaluated on a concrete database. -/
theorem representation_flags_membership_witness :
    ((7 : Int), (1 : Int)) ∈ ([(7, 1)] : List (Int × Int))
    ∧ (recipeRepresentation
        { recipes := [], ingredientrecipe := [], ingredients := [],
          favoriterecipe := [(7, 1)], shoppinglist := [], subscribe := [],
          nextRecipeId := 2 } (some 7) sampleRecipeA).is_favorited = true :=
  ⟨by decide,
    ((representation_flags_membership
      { recipes := [], ingredientrecipe := [], ingredients := [],
        favoriterecipe := [(7, 1)], shoppinglist := [], subscribe := [],
        nextRecipeId := 2 } sampleRecipeA).2.2.1 7).2 (by decide)⟩

/-- C10: `filter_is_favorited` (guarded on `is_authenticated`) and
`filter_is_in_shopping_cart` (guarded on `not is_anonymous`) are the same
function of the requester, the value, the queryset and the join table
consulted: pointed at the same table they agree on every input. -/
theorem favorited_and_cart_filters_equivalent (u : Requester)
    (table : List (Int × Int)) (qs : List RecipeRow) (value : Bool) :
    filter_is_favorited u table qs value
      = filter_is_in_shopping_cart u table qs value := by
  cases u <;>
    simp [filter_is_favorited, filter_is_in_shopping_cart, isAuthenticated,
      isAnonymous]

/-- C8: subscribe validation fails exactly on self-subscription or an already
existing `(user, author)` pair; a first subscription of A to B succeeds and
an immediately repeated one fails. -/
theorem subscribe_uniqueness_and_self_check (db : DB) (user author : Int) :
    ((∃ m, subscribeValidate db user author = .error m)
        ↔ (user = author ∨ (user, author) ∈ db.subscribe))
    ∧ (∀ A B : Int, A ≠ B → (A, B) ∉ db.subscribe →
        ∃ db', subscribeCreate db A B = .ok db'
          ∧ ∃ m, subscribeValidate db' A B = .error m) := by
  constructor
  · by_cases hany : db.subscribe.any (fun p => p.1 == user && p.2 == author)
    · simp only [subscribeValidate, hany, if_true]
      exact ⟨fun _ => Or.inr ((any_pair_mem _ _ _).1 hany),
        fun _ => ⟨msgSubscribeDup, rfl⟩⟩
    · simp only [subscribeValidate, hany, Bool.false_eq_true, if_false]
      by_cases hself : user = author
      · simp only [if_pos hself]
        exact ⟨fun _ => Or.inl hself, fun _ => ⟨msgSubscribeSelf, rfl⟩⟩
      · simp only [if_neg hself]
        constructor
        · rintro ⟨m, hm⟩
          cases hm
        · rintro (h | h)
          · exact absurd h hself
          · exact absurd ((any_pair_mem _ _ _).2 h) hany
  · intro A B hAB hmem
    have hany : db.subscribe.any (fun p => p.1 == A && p.2 == B) = false := by
      by_contra hc
      exact hmem ((any_pair_mem _ _ _).1 (by simpa using hc))
    refine ⟨{ db with subscribe := db.subscribe ++ [(A, B)] }, ?_, ?_⟩
    · simp only [subscribeCreate, subscribeValidate, hany,
        Bool.false_eq_true, if_false, if_neg hAB]
    · refine ⟨msgSubscribeDup, ?_⟩
      have hany2 : (db.subscribe ++ [(A, B)]).any
          (fun p => p.1 == A && p.2 == B) = true :=
        (any_pair_mem _ _ _).2 (by simp)
      simp only [subscribeValidate, hany2, if_true]

/-- The witness for C8 on a concrete subscription table. -/
theorem subscribe_uniqueness_and_self_check_witness :
    ∃ db', subscribeCreate
        { recipes := [], ingredientrecipe := [], ingredients := [],
          favoriterecipe := [], shoppinglist := [], subscribe := [],
          nextRecipeId := 0 } 1 2 = .ok db'
      ∧ ∃ m, subscribeValidate db' 1 2 = .error m :=
  (subscribe_uniqueness_and_self_check
    { recipes := [], ingredientrecipe := [], ingredients := [],
      favoriterecipe := [], shoppinglist := [], subscribe := [],
      nextRecipeId := 0 } 1 2).2 1 2 (by decide) (by decide)

/-- C4: a line item amount of the string "0", the integer -1 or the string
"abc" makes ingredient validation fail; an amount of the string "5" passes
and `int` coerces it to 5. -/
theorem amount_validation_cases (l : List LineItem) (li : LineItem)
    (hmem : li ∈ l)
    (hbad : li.amount = .str "0" ∨ li.amount = .int (-1)
      ∨ li.amount = .str "abc") :
    isErr (validate_ingredients (some l)) = true
    ∧ validate_ingredients (some [{ id := 1, amount := .str "5" }])
        = .ok [{ id := 1, amount := .str "5" }]
    ∧ pyInt (.str "5") = some 5 := by
  refine ⟨?_, by rfl, by decide⟩
  cases hv : validate_ingredients (some l) with
  | error m => rfl
  | ok lv =>
    obtain ⟨heq, -, -, hall⟩ := (validate_ingredients_ok_iff _ _).1 hv
    cases heq
    have hv := hall li hmem
    rcases hbad with h | h | h <;> rw [h] at hv <;>
      exact absurd hv (by decide)

/-- The witness for C4: the failing inputs evaluated concretely. -/
theorem amount_validation_cases_witness :
    isErr (validate_ingredients (some [{ id := 1, amount := .str "0" }])) = true
    ∧ validate_ingredients (some [{ id := 1, amount := .str "5" }])
        = .ok [{ id := 1, amount := .str "5" }]
    ∧ pyInt (.str "5") = some 5 :=
  amount_validation_cases [{ id := 1, amount := .str "0" }]
    { id := 1, amount := .str "0" } (by decide) (Or.inl rfl)

/-- C5: a write payload whose ingredient list holds two line items with the
same ingredient id, at any two distinct positions and with any amounts, is
rejected with the duplicate-ingredient validation error. -/
theorem duplicate_ingredient_id_rejected (l : List LineItem)
    (i j : Fin l.length) (hij : i ≠ j)
    (hid : (l.get i).id = (l.get j).id) :
    validate_ingredients (some l) = .error msgIngredientsDup := by
  have hpos : 0 < l.length := Nat.lt_of_le_of_lt (Nat.zero_le _) i.isLt
  have hne : l ≠ [] := by
    intro h
    rw [h] at hpos
    exact absurd hpos (by simp)
  apply validate_ingredients_dup l hne
  intro hnd
  rw [List.nodup_iff_injective_getElem] at hnd
  have hlen := List.length_map l (fun li : LineItem => li.id)
  have h1 : (fun k : Fin (l.map (·.id)).length => (l.map (·.id))[k.1])
        ⟨i.1, by rw [hlen]; exact i.isLt⟩
      = (fun k : Fin (l.map (·.id)).length => (l.map (·.id))[k.1])
        ⟨j.1, by rw [hlen]; exact j.isLt⟩ := by
    simp only [List.getElem_map]
    simpa [List.get_eq_getElem] using hid
  have h2 := hnd h1
  have h3 := congrArg Fin.val h2
  exact hij (Fin.ext h3)

/-- The witness for C5: a concrete payload with a repeated ingredient id. -/
theorem duplicate_ingredient_id_rejected_witness :
    validate_ingredients (some [{ id := 1, amount := .int 2 },
        { id := 1, amount := .int 3 }])
      = .error msgIngredientsDup :=
  duplicate_ingredient_id_rejected
    [{ id := 1, amount := .int 2 }, { id := 1, amount := .int 3 }]
    ⟨0, by decide⟩ ⟨1, by decide⟩ (by decide) rfl

/-- C1: creating a recipe from a validated write payload and rendering it
through the read representation returns the payload's scalar fields (name,
text, cooking_time), its tags, and its ingredient ids and amounts exactly,
introducing no duplicate entries. -/
theorem create_then_read_round_trip (db : DB) (author : Int)
    (requester : Requester) (raw : RawPayload) (d : Payload)
    (db' : DB) (r' : RecipeRow)
    (hval : runValidation raw = .ok d)
    (hfresh : ∀ l ∈ db.ingredientrecipe, l.recipe ≠ db.nextRecipeId)
    (hc : create db author d = (db', r')) :
    (recipeRepresentation db' requester r').name = d.name
    ∧ (recipeRepresentation db' requester r').text = d.text
    ∧ (recipeRepresentation db' requester r').cooking_time = d.cooking_time
    ∧ (recipeRepresentation db' requester r').tags = d.tags
    ∧ ((recipeRepresentation db' requester r').ingredients.map
        (fun i => (i.id, i.amount)))
        = d.ingredients.map (fun li => (li.id, (pyInt li.amount).getD 0))
    ∧ ((recipeRepresentation db' requester r').tags.map (·.id)).Nodup
    ∧ ((recipeRepresentation db' requester r').ingredients.map (·.id)).Nodup
    := by
  obtain ⟨hing, hct, htags, -, -, -⟩ := runValidation_ok_elim hval
  obtain ⟨-, hdne, hdnodup, hdamounts⟩ :=
    (validate_ingredients_ok_iff _ _).1 hing
  obtain ⟨-, htne, htnodup⟩ := (validate_tags_ok_iff _ _).1 htags
  simp only [create, create_ingredients_core] at hc
  cases hc
  have h1 : db.ingredientrecipe.filter
      (fun l => l.recipe == db.nextRecipeId) = [] :=
    List.filter_eq_nil_iff.2 (fun a ha => by simpa using hfresh a ha)
  have h2 : (d.ingredients.map
        (fun li => ({ recipe := db.nextRecipeId, ingredient := li.id,
                      amount := (pyInt li.amount).getD 0 }
          : IngredientRecipeRow))).filter
      (fun l => l.recipe == db.nextRecipeId)
      = d.ingredients.map
        (fun li => ({ recipe := db.nextRecipeId, ingredient := li.id,
                      amount := (pyInt li.amount).getD 0 }
          : IngredientRecipeRow)) := by
    rw [List.filter_eq_self]
    intro a ha
    obtain ⟨li, -, rfl⟩ := List.mem_map.1 ha
    simp
  refine ⟨rfl, rfl, rfl, rfl, ?_, htnodup, ?_⟩
  · simp only [recipeRepresentation, List.filter_append, h1, h2,
      List.nil_append, List.map_map]
    rfl
  · simp only [recipeRepresentation, List.filter_append, h1, h2,
      List.nil_append, List.map_map]
    have : ((fun i : ReprIngredient => i.id) ∘
        (fun l : IngredientRecipeRow =>
          ({ id := l.ingredient,
             name := ((db.ingredients.find? (fun i => i.id == l.ingredient)).map
                       (·.name)).getD "",
             measurement_unit :=
               ((db.ingredients.find? (fun i => i.id == l.ingredient)).map
                 (·.measurement_unit)).getD "",
             amount := l.amount } : ReprIngredient)) ∘
        (fun li : LineItem =>
          ({ recipe := db.nextRecipeId, ingredient := li.id,
             amount := (pyInt li.amount).getD 0 } : IngredientRecipeRow)))
        = fun li : LineItem => li.id := rfl
    rw [this]
    exact hdnodup

/-- A sample database and validated payload exercising the round trip. -/
def sampleDB : DB :=
  { recipes := [], ingredientrecipe := [],
    ingredients := [{ id := 1, name := "Salt", measurement_unit := "g" }],
    favoriterecipe := [], shoppinglist := [], subscribe := [],
    nextRecipeId := 1 }

def sampleRaw : RawPayload :=
  { name := "Soup", text := "Boil", image := "img", cooking_time := 5,
    tags := some [sampleTagA],
    ingredients := some [{ id := 1, amount := .int 2 }] }

def samplePayload : Payload :=
  { name := "Soup", text := "Boil", image := "img", cooking_time := 5,
    tags := [sampleTagA],
    ingredients := [{ id := 1, amount := .int 2 }] }

/-- The witness for C1 on a concrete database and payload. -/
theorem create_then_read_round_trip_witness :
    (recipeRepresentation (create sampleDB 1 samplePayload).1 none
        (create sampleDB 1 samplePayload).2).name = samplePayload.name
    ∧ (recipeRepresentation (create sampleDB 1 samplePayload).1 none
        (create sampleDB 1 samplePayload).2).text = samplePayload.text
    ∧ (recipeRepresentation (create sampleDB 1 samplePayload).1 none
        (create sampleDB 1 samplePayload).2).cooking_time
        = samplePayload.cooking_time
    ∧ (recipeRepresentation (create sampleDB 1 samplePayload).1 none
        (create sampleDB 1 samplePayload).2).tags = samplePayload.tags
    ∧ ((recipeRepresentation (create sampleDB 1 samplePayload).1 none
        (create sampleDB 1 samplePayload).2).ingredients.map
          (fun i => (i.id, i.amount)))
        = samplePayload.ingredients.map
            (fun li => (li.id, (pyInt li.amount).getD 0))
    ∧ ((recipeRepresentation (create sampleDB 1 samplePayload).1 none
        (create sampleDB 1 samplePayload).2).tags.map (·.id)).Nodup
    ∧ ((recipeRepresentation (create sampleDB 1 samplePayload).1 none
        (create sampleDB 1 samplePayload).2).ingredients.map (·.id)).Nodup :=
  create_then_read_round_trip sampleDB 1 none sampleRaw samplePayload
    (create sampleDB 1 samplePayload).1 (create sampleDB 1 samplePayload).2
    (by rfl) (by intro l hl; simp [sampleDB] at hl) rfl

/-- C7: on update with a validated payload the tag association is replaced by
the supplied tags and the recipe's line items are cleared and rebuilt exactly
from the supplied ingredients; a payload omitting ingredients fails with the
missing-ingredients validation error; and no error other than a
`ValidationError` is ever surfaced. -/
theorem update_replaces_tags_and_lines (db : DB) (inst : RecipeRow)
    (raw : RawPayload) :
    (raw.ingredients = none →
      updateEntry db inst raw = .error (.validation msgIngredientsMissing))
    ∧ (∀ e, updateEntry db inst raw = .error e → ∃ m, e = .validation m)
    ∧ (∀ d, runValidation raw = .ok d →
        ∃ p : DB × RecipeRow, updateEntry db inst raw = .ok p)
    ∧ (∀ d (p : DB × RecipeRow), runValidation raw = .ok d →
        updateEntry db inst raw = .ok p →
        p.2.tags = d.tags
          ∧ p.1.ingredientrecipe.filter (fun l => l.recipe == inst.id)
              = d.ingredients.map
                  (fun li => ({ recipe := inst.id, ingredient := li.id,
                                amount := (pyInt li.amount).getD 0 }
                    : IngredientRecipeRow))
          ∧ p.1.ingredientrecipe.filter (fun l => l.recipe != inst.id)
              = db.ingredientrecipe.filter (fun l => l.recipe != inst.id))
    := by
  refine ⟨?_, ?_, ?_, ?_⟩
  · intro hnone
    have hrv : runValidation raw = .error msgIngredientsMissing := by
      simp [runValidation, hnone, validate_ingredients, Bind.bind, Except.bind]
    simp [updateEntry, hrv]
  · intro e he
    cases hrv : runValidation raw with
    | error m =>
      rw [updateEntry, hrv] at he
      exact ⟨m, (Except.error.inj he).symm⟩
    | ok d =>
      rw [updateEntry, hrv] at he
      simp only [update, Payload.toUpdateData, create_ingredients,
        create_ingredients_core, superUpdate] at he
      cases he
  · intro d hrv
    exact ⟨_, by rw [updateEntry, hrv]; exact rfl⟩
  · intro d p hrv hp
    rw [updateEntry, hrv] at hp
    simp only [update, Payload.toUpdateData, create_ingredients,
      create_ingredients_core, superUpdate] at hp
    have hpe := Except.ok.inj hp
    subst hpe
    refine ⟨rfl, ?_, ?_⟩
    · rw [List.filter_append]
      have hA : ((db.ingredientrecipe.filter
            (fun l => l.recipe != inst.id)).filter
          (fun l => l.recipe == inst.id)) = [] := by
        apply List.filter_eq_nil_iff.2
        intro a ha
        have hmem := (List.mem_filter.1 ha).2
        simp only [bne_iff_ne, ne_eq, decide_eq_true_eq] at hmem ⊢
        simpa using hmem
      have hB : ((d.ingredients.map
            (fun li => ({ recipe := inst.id, ingredient := li.id,
                          amount := (pyInt li.amount).getD 0 }
              : IngredientRecipeRow))).filter
          (fun l => l.recipe == inst.id))
          = d.ingredients.map
              (fun li => ({ recipe := inst.id, ingredient := li.id,
                            amount := (pyInt li.amount).getD 0 }
                : IngredientRecipeRow)) := by
        rw [List.filter_eq_self]
        intro a ha
        obtain ⟨li, -, rfl⟩ := List.mem_map.1 ha
        simp
      rw [hA, hB, List.nil_append]
    · rw [List.filter_append]
      have hA : ((db.ingredientrecipe.filter
            (fun l => l.recipe != inst.id)).filter
          (fun l => l.recipe != inst.id))
          = db.ingredientrecipe.filter (fun l => l.recipe != inst.id) := by
        rw [List.filter_eq_self]
        intro a ha
        exact (List.mem_filter.1 ha).2
      have hB : ((d.ingredients.map
            (fun li => ({ recipe := inst.id, ingredient := li.id,
                          amount := (pyInt li.amount).getD 0 }
              : IngredientRecipeRow))).filter
          (fun l => l.recipe != inst.id)) = [] := by
        apply List.filter_eq_nil_iff.2
        intro a ha
        obtain ⟨li, -, rfl⟩ := List.mem_map.1 ha
        simp
      rw [hA, hB, List.append_nil]

/-- The witness for C7 on a concrete database, recipe and payload. -/
theorem update_replaces_tags_and_lines_witness :
    (∃ p : DB × RecipeRow,
      updateEntry sampleDB sampleRecipeA sampleRaw = .ok p)
    ∧ ((updateEntry sampleDB sampleRecipeA sampleRaw = .ok
          ((updateEntry sampleDB sampleRecipeA sampleRaw).toOption.getD
            (sampleDB, sampleRecipeA)))
        → ((updateEntry sampleDB sampleRecipeA sampleRaw).toOption.getD
            (sampleDB, sampleRecipeA)).2.tags = samplePayload.tags) :=
  ⟨(update_replaces_tags_and_lines sampleDB sampleRecipeA sampleRaw).2.2.1
      samplePayload (by rfl),
    fun hok =>
      ((update_replaces_tags_and_lines sampleDB sampleRecipeA
        sampleRaw).2.2.2 samplePayload _ (by rfl) hok).1⟩

theorem runValidation_error_ing {raw : RawPayload} {m : String}
    (h : validate_ingredients raw.ingredients = .error m) :
    runValidation raw = .error m := by
  unfold runValidation
  rw [h]
  rfl

theorem runValidation_error_ct {raw : RawPayload} {l : List LineItem}
    {m : String}
    (h1 : validate_ingredients raw.ingredients = .ok l)
    (h2 : validate_cooking_time raw.cooking_time = .error m) :
    runValidation raw = .error m := by
  unfold runValidation
  rw [h1]
  simp only [Bind.bind, Except.bind]
  rw [h2]

theorem runValidation_error_tags {raw : RawPayload} {l : List LineItem}
    {c : Int} {m : String}
    (h1 : validate_ingredients raw.ingredients = .ok l)
    (h2 : validate_cooking_time raw.cooking_time = .ok c)
    (h3 : validate_tags raw.tags = .error m) :
    runValidation raw = .error m := by
  unfold runValidation
  rw [h1]
  simp only [Bind.bind, Except.bind]
  rw [h2, h3]

theorem runValidation_ok_intro {raw : RawPayload} {l : List LineItem}
    {c : Int} {ts : List Tag}
    (h1 : validate_ingredients raw.ingredients = .ok l)
    (h2 : validate_cooking_time raw.cooking_time = .ok c)
    (h3 : validate_tags raw.tags = .ok ts) :
    runValidation raw = .ok
      { name := raw.name, text := raw.text, image := raw.image,
        cooking_time := c, tags := ts, ingredients := l } := by
  unfold runValidation
  rw [h1]
  simp only [Bind.bind, Except.bind]
  rw [h2, h3]

theorem ruleOfMsg_missing : ruleOfMsg msgIngredientsMissing = 1 := by rfl

theorem ruleOfMsg_empty : ruleOfMsg msgIngredientsEmpty = 1 := by rfl

theorem ruleOfMsg_dup : ruleOfMsg msgIngredientsDup = 2 := by rfl

theorem ruleOfMsg_notNumber : ruleOfMsg msgAmountNotNumber = 3 := by rfl

theorem ruleOfMsg_notPositive : ruleOfMsg msgAmountNotPositive = 3 := by rfl

theorem ruleOfMsg_ct : ruleOfMsg msgCookingTime = 4 := by rfl

theorem ruleOfMsg_tagsEmpty : ruleOfMsg msgTagsEmpty = 5 := by rfl

theorem ruleOfMsg_tagsDup : ruleOfMsg msgTagsDup = 5 := by rfl

/-- The shape of every failing branch of the ordered-validation theorem: the
pipeline reports the message of the first failing rule. -/
theorem branchFinish {raw : RawPayload} {M : String} {k : Nat}
    (hrv : runValidation raw = .error M)
    (hfr : firstFailingRule raw = k) (hk : k ≠ 0)
    (hrule : ruleOfMsg M = k) :
    ((∃ d, runValidation raw = .ok d) ↔ firstFailingRule raw = 0)
    ∧ (∀ m, runValidation raw = .error m
        → ruleOfMsg m = firstFailingRule raw) := by
  constructor
  · constructor
    · rintro ⟨d, hd⟩
      rw [hrv] at hd
      cases hd
    · intro h
      rw [hfr] at h
      exact absurd h hk
  · intro m hm
    rw [hrv] at hm
    have hme := Except.error.inj hm
    rw [← hme, hrule, hfr]

/-- C6: recipe write validation is ordered with the first failure reported:
a payload violating several of the rules (1) ingredients present and
non-empty, (2) no duplicate ingredient ids, (3) amounts positive,
(4) cooking_time at least 1, (5) tags non-empty without duplicates, reports
the error of the earliest violated rule and no later rule's error; it
succeeds exactly when no rule is violated. -/
theorem validation_order_first_failure (raw : RawPayload) :
    ((∃ d, runValidation raw = .ok d) ↔ firstFailingRule raw = 0)
    ∧ (∀ m, runValidation raw = .error m
        → ruleOfMsg m = firstFailingRule raw) := by
  rcases hri : raw.ingredients with _ | l
  · have hrv := runValidation_error_ing
      (show validate_ingredients raw.ingredients
          = .error msgIngredientsMissing by rw [hri]; rfl)
    have hfr : firstFailingRule raw = 1 := by simp [firstFailingRule, rule1, hri]
    exact branchFinish hrv hfr (by decide) ruleOfMsg_missing
  · rcases l with _ | ⟨li0, lt⟩
    · have hrv := runValidation_error_ing
        (show validate_ingredients raw.ingredients
            = .error msgIngredientsEmpty by rw [hri]; rfl)
      have hfr : firstFailingRule raw = 1 := by
        simp [firstFailingRule, rule1, hri]
      exact branchFinish hrv hfr (by decide) ruleOfMsg_empty
    · have hlne : (li0 :: lt) ≠ [] := by simp
      have h1 : rule1 raw = true := by simp [rule1, hri]
      by_cases hdup : ((li0 :: lt).map (·.id)).Nodup
      · have h2 : rule2 raw = true := by
          simp only [rule2, hri]
          exact decide_eq_true hdup
        by_cases hamt : ∀ li ∈ (li0 :: lt), amountValid li.amount = true
        · have h3 : rule3 raw = true := by
            simp only [rule3, hri]
            exact List.all_eq_true.2 hamt
          have hviok : validate_ingredients raw.ingredients
              = .ok (li0 :: lt) := by
            rw [hri]
            exact (validate_ingredients_ok_iff _ _).2 ⟨rfl, hlne, hdup, hamt⟩
          by_cases hct : raw.cooking_time < 1
          · have h4 : rule4 raw = false := by
              simp only [rule4, decide_eq_false_iff_not]
              omega
            have hrv := runValidation_error_ct hviok
              (show validate_cooking_time raw.cooking_time
                  = .error msgCookingTime by simp [validate_cooking_time, hct])
            have hfr : firstFailingRule raw = 4 := by
              simp [firstFailingRule, h1, h2, h3, h4]
            exact branchFinish hrv hfr (by decide) ruleOfMsg_ct
          · have h4 : rule4 raw = true := by
              simp only [rule4, decide_eq_true_eq]
              omega
            have hvct : validate_cooking_time raw.cooking_time
                = .ok raw.cooking_time := by
              simp [validate_cooking_time, hct]
            rcases hrt : raw.tags with _ | ts
            · have hrv := runValidation_error_tags hviok hvct
                (show validate_tags raw.tags = .error msgTagsEmpty by
                  rw [hrt]; rfl)
              have hfr : firstFailingRule raw = 5 := by
                simp [firstFailingRule, h1, h2, h3, h4, rule5, hrt]
              exact branchFinish hrv hfr (by decide) ruleOfMsg_tagsEmpty
            · rcases ts with _ | ⟨t0, ts2⟩
              · have hrv := runValidation_error_tags hviok hvct
                  (show validate_tags raw.tags = .error msgTagsEmpty by
                    rw [hrt]; rfl)
                have hfr : firstFailingRule raw = 5 := by
                  simp [firstFailingRule, h1, h2, h3, h4, rule5, hrt]
                exact branchFinish hrv hfr (by decide) ruleOfMsg_tagsEmpty
              · by_cases htd : ((t0 :: ts2).map (·.id)).Nodup
                · have hvt : validate_tags raw.tags = .ok (t0 :: ts2) := by
                    rw [hrt]
                    exact (validate_tags_ok_iff _ _).2 ⟨rfl, by simp, htd⟩
                  have hrv := runValidation_ok_intro hviok hvct hvt
                  have h5 : rule5 raw = true := by
                    simp only [rule5, hrt, List.isEmpty_cons, Bool.not_false,
                      Bool.true_and]
                    exact decide_eq_true htd
                  have hfr : firstFailingRule raw = 0 := by
                    simp [firstFailingRule, h1, h2, h3, h4, h5]
                  refine ⟨⟨fun _ => hfr, fun _ => ⟨_, hrv⟩⟩, ?_⟩
                  intro m hm
                  rw [hrv] at hm
                  cases hm
                · have hrv := runValidation_error_tags hviok hvct
                    (show validate_tags raw.tags = .error msgTagsDup by
                      rw [hrt]; exact validate_tags_dup _ (by simp) htd)
                  have h5 : rule5 raw = false := by
                    simp only [rule5, hrt, List.isEmpty_cons, Bool.not_false,
                      Bool.true_and]
                    exact decide_eq_false htd
                  have hfr : firstFailingRule raw = 5 := by
                    simp [firstFailingRule, h1, h2, h3, h4, h5]
                  exact branchFinish hrv hfr (by decide) ruleOfMsg_tagsDup
        · have h3 : rule3 raw = false := by
            simp only [rule3, hri]
            rw [Bool.eq_false_iff]
            intro hc
            exact hamt (List.all_eq_true.1 hc)
          obtain ⟨M, hviM, hcase⟩ :=
            validate_ingredients_bad_amount _ hlne hdup hamt
          have hrv := runValidation_error_ing
            (show validate_ingredients raw.ingredients = .error M by
              rw [hri]; exact hviM)
          have hfr : firstFailingRule raw = 3 := by
            simp [firstFailingRule, h1, h2, h3]
          have hrule : ruleOfMsg M = 3 := by
            rcases hcase with rfl | rfl
            · exact ruleOfMsg_notNumber
            · exact ruleOfMsg_notPositive
          exact branchFinish hrv hfr (by decide) hrule
      · have h2 : rule2 raw = false := by
          simp only [rule2, hri]
          exact decide_eq_false hdup
        have hrv := runValidation_error_ing
          (show validate_ingredients raw.ingredients = .error msgIngredientsDup
            by rw [hri]; exact validate_ingredients_dup _ hlne hdup)
        have hfr : firstFailingRule raw = 2 := by
          simp [firstFailingRule, h1, h2]
        exact branchFinish hrv hfr (by decide) ruleOfMsg_dup

/-- The witness for C6: a payload breaking rules 1, 4 and 5 at once (empty
ingredients, zero cooking time, duplicated tags) reports the rule-1 error. -/
theorem validation_order_first_failure_witness :
    ruleOfMsg msgIngredientsEmpty
      = firstFailingRule
        { name := "n", text := "t", image := "i", cooking_time := 0,
          tags := some [sampleTagA, sampleTagA], ingredients := some [] } :=
  (validation_order_first_failure
    { name := "n", text := "t", image := "i", cooking_time := 0,
      tags := some [sampleTagA, sampleTagA], ingredients := some [] }).2
    msgIngredientsEmpty (by rfl)

end Foodgram
